import Mathlib

set_option maxHeartbeats 1000000

/-!
Shallow embedding of the dshield web honeypot core
(`srv/web/isc_agent/__main__.py`): the template engine
(`apply_customizations`), the deception responder (`responder`), the
dispatch loop of `handle_request`, and the shutdown signal handler.
External collaborators (scorer, telemetry sink, tunnel manager, socket
I/O) are parameters of the embedded functions.
-/

namespace DShield

/-! ## Template engine: `apply_customizations` -/

/-- Character class of the regex `\w` (ASCII model of Python word characters). -/
def isWordChar (c : Char) : Bool := c.isAlphanum || c == '_'

/-- Longest run of characters satisfying `p` at the head: returns `(run, rest)`. -/
def takeWhileList (p : Char → Bool) : List Char → List Char × List Char
  | [] => ([], [])
  | c :: cs =>
    if p c then ((c :: (takeWhileList p cs).1), (takeWhileList p cs).2)
    else ([], c :: cs)

/-- Attempt to match the regex `\*{\*(\w+)\*}\*` at the head of the character
list; on success returns the captured name and the characters after the
matched region. -/
def matchMarkerAt (l : List Char) : Option (List Char × List Char) :=
  match l with
  | a :: b :: c :: rest =>
    if a = '*' ∧ b = '{' ∧ c = '*' then
      match takeWhileList isWordChar rest with
      | (run, d :: e :: f :: rest3) =>
        if run ≠ [] ∧ d = '*' ∧ e = '}' ∧ f = '*' then some (run, rest3) else none
      | _ => none
    else none
  | _ => none

/-- `re.findall(r"\*{\*(\w+)\*}\*", text)`: left-to-right scan for
non-overlapping matches; after a match the scan resumes after the matched
region.  Fuel-based recursion; fuel at least the length of the list
suffices. -/
def findallAux : Nat → List Char → List (List Char)
  | 0, _ => []
  | _ + 1, [] => []
  | fuel + 1, c :: cs =>
    match matchMarkerAt (c :: cs) with
    | some (name, rest) => name :: findallAux fuel rest
    | none => findallAux fuel cs

def findall (s : String) : List (List Char) := findallAux s.toList.length s.toList

/-- `re.sub(pat, rep, text)` for a literal pattern: replace each
non-overlapping occurrence left to right; replacement text is not
rescanned.  Fuel-based; fuel at least the length of the list suffices. -/
def replaceAux (pat rep : List Char) : Nat → List Char → List Char
  | 0, l => l
  | _ + 1, [] => []
  | fuel + 1, c :: cs =>
    if pat.isPrefixOf (c :: cs) then rep ++ replaceAux pat rep fuel (List.drop pat.length (c :: cs))
    else c :: replaceAux pat rep fuel cs

/-- Distinct elements in order of first occurrence (model of iterating over
`set(custom_tags)`; CPython set iteration order is unspecified, and every
claim settled here is insensitive to that order). -/
def dedupAux : Nat → List (List Char) → List (List Char)
  | 0, _ => []
  | _ + 1, [] => []
  | fuel + 1, x :: xs => x :: dedupAux fuel (xs.filter (fun y => y != x))

/-- The literal pattern `\*{\*name\*}\*` built for a captured name. -/
def markerOf (name : List Char) : List Char :=
  '*' :: '{' :: '*' :: (name ++ ['*', '}', '*'])

/-- Python `dict` lookup (`d.get(k)`), on an association list with unique keys. -/
def lookup? : List (String × String) → String → Option String
  | [], _ => none
  | p :: l, k => if p.1 == k then some p.2 else lookup? l k

/-- Python `d.get(k, default)`. -/
def lookupD (l : List (String × String)) (k d : String) : String := (lookup? l k).getD d

/-- Python `d[k] = v`: replace the value in place when the key is present,
otherwise append (insertion order of a Python dict; keys are unique). -/
def setItem : List (String × String) → String → String → List (String × String)
  | [], k, v => [(k, v)]
  | p :: l, k, v => if p.1 == k then (k, v) :: l else p :: setItem l k v

/-- The marker-substitution loop of `apply_customizations`, over an already
assembled tag environment: find the marker names, take them distinct, and
globally replace each name's marker with its tag value (empty string when the
name is absent). -/
def renderCore (env : List (String × String)) (text : String) : String :=
  let found := findall text
  let distinct := dedupAux found.length found
  String.mk (distinct.foldl
    (fun t name => replaceAux (markerOf name) (lookupD env (String.mk name) "").toList t.length t)
    text.toList)

/-- `HoneypotRequestHandler.apply_customizations`: the stored customization
mapping with the reserved tag `date` overwritten by the current
`date_time_string()` value (passed here as the parameter `dateNow`), then the
marker-substitution loop. -/
def apply_customizations (tags : List (String × String)) (dateNow : String)
    (text_element : String) : String :=
  renderCore (setItem tags "date" dateNow) text_element

/-! ## Responder data model -/

/-- Python exceptions that the embedded code can raise. -/
inductive PyErr
  | typeError
  | valueError
  | indexError
  | unicodeDecodeError
  | brokenPipe
deriving DecidableEq, Repr

/-- A stored response dict: optional `status_code`, `headers` mapping
(unique keys, insertion order), optional `body`. -/
structure Response where
  status_code : Option Nat
  headers : List (String × String)
  body : Option String
deriving DecidableEq, Repr

/-- What `responder` actually writes to the socket: the status line, the
`Server` header sent by the overridden `send_response` (the override never
emits the protocol layer's default `Server`/`Date` identification), the
headers sent by the remaining-header loop, the blank separator, the body. -/
structure EmittedResponse where
  status : Nat
  serverHeader : Option String
  headers : List (String × String)
  body : String
deriving DecidableEq, Repr

/-- `isc_agent.responses.get(response_id)`: lookup in the response table. -/
def tableGet : List (Nat × Response) → Nat → Option Response
  | [], _ => none
  | p :: l, k => if p.1 == k then some p.2 else tableGet l k

/-- `HoneypotRequestHandler.responder(response_id)`.

`dict(isc_agent.responses.get(response_id))` raises `TypeError` when the id
is absent (`dict(None)`), before the `if not resp` guard can run; that path
is the `Except.error PyErr.typeError` branch.  Otherwise: set
`customized_server_string` from the raw `Server` header; template the body
and compute its UTF-8 byte length; resolve the status code (explicit, else
200/404 by comparison with `len("PAGE NOT FOUND.")`); force `Content-Type`
and `Content-Length` into the header map; emit every header except the
literal `Server` key, templating each value.  The `Server` header is emitted
by `send_response` only when `customized_server_string` is truthy (a
non-empty string). -/
def responder (responses : List (Nat × Response)) (tags : List (String × String))
    (dateNow : String) (response_id : Nat) : Except PyErr EmittedResponse :=
  match tableGet responses response_id with
  | none => .error .typeError
  | some resp =>
    let headers0 := resp.headers
    let customized_server_string := lookup? headers0 "Server"
    let body := apply_customizations tags dateNow (resp.body.getD "Not Found")
    let contentLen := body.utf8ByteSize
    let default_status_code := if ("PAGE NOT FOUND." : String).length < contentLen then 200 else 404
    let status_code := resp.status_code.getD default_status_code
    let headers1 := setItem headers0 "Content-Type" (lookupD headers0 "Content-Type" "text/html")
    let headers2 := setItem headers1 "Content-Length" (toString contentLen)
    let sentHeaders := (headers2.filter (fun p => p.1 != "Server")).map
      (fun p => (p.1, apply_customizations tags dateNow p.2))
    .ok {
      status := status_code
      serverHeader :=
        match customized_server_string with
        | some s => if s = "" then none else some s
        | none => none
      headers := sentHeaders
      body := body }

/-! ## Dispatch: the selection loop of `handle_request` -/

/-- A signature dict: the `responses` key (candidate response ids) when
present; `hasOtherKeys` records whether the dict carries further (matching
rule) keys, which only matters for Python truthiness of the dict; `sid`
stands in for the identity of that remaining content. -/
structure Signature where
  sid : Nat
  responses : Option (List Nat)
  hasOtherKeys : Bool
deriving DecidableEq, Repr

/-- Python truthiness of a signature dict: nonempty. -/
def sigTruthy (s : Signature) : Bool := s.responses.isSome || s.hasOtherKeys

/-- The linear scan of `handle_request`: starting from
`best_score = -1, best_signature = None`, a strictly greater score replaces
the current best candidate. -/
def scanBest (score : Signature → Int) : List Signature → Int × Option Signature → Int × Option Signature
  | [], acc => acc
  | s :: rest, acc => scanBest score rest (if acc.1 < score s then (score s, some s) else acc)

def selectBest (sigs : List Signature) (score : Signature → Int) : Int × Option Signature :=
  scanBest score sigs (-1, none)

/-- `random.choice(seq)`: `seq[randbelow(len(seq))]`; raises `IndexError` on
an empty sequence.  The random index is the parameter `k`, reduced modulo the
length. -/
def randomChoice (l : List Nat) (k : Nat) : Except PyErr Nat :=
  match l with
  | [] => .error .indexError
  | x :: xs => .ok ((x :: xs).get ⟨k % (xs.length + 1), Nat.mod_lt _ (Nat.succ_pos _)⟩)

/-- Lines 143-157 of `handle_request`: run the scan, then
`if best_signature and best_score > 0`, pick at random from
`best_signature.get("responses", [1])`, else use the fixed default `1`. -/
def chooseResponseId (sigs : List Signature) (score : Signature → Int) (k : Nat) :
    Except PyErr Nat :=
  match selectBest sigs score with
  | (best_score, some best_signature) =>
    if sigTruthy best_signature ∧ 0 < best_score then
      randomChoice (best_signature.responses.getD [1]) k
    else .ok 1
  | (_, none) => .ok 1

/-! ## HTTP date model

`self.date_time_string()` comes from the standard library's
`BaseHTTPRequestHandler` and is not part of this repository's sources. -/

/-- Modelled from the spec: the timestamp fed to the canonical HTTP date
format (`BaseHTTPRequestHandler.date_time_string`, stdlib, not in src). -/
structure HttpTimestamp where
  weekday : Nat
  day : Nat
  month : Nat
  year : Nat
  hour : Nat
  minute : Nat
  second : Nat
deriving DecidableEq, Repr

/-- The field ranges under which the timestamp renders to a canonical HTTP
date (years restricted to four digits, as every real clock value is). -/
def ValidTimestamp (t : HttpTimestamp) : Prop :=
  t.weekday < 7 ∧ 1 ≤ t.day ∧ t.day ≤ 31 ∧ 1 ≤ t.month ∧ t.month ≤ 12 ∧
    1000 ≤ t.year ∧ t.year ≤ 9999 ∧ t.hour < 24 ∧ t.minute < 60 ∧ t.second < 60

instance (t : HttpTimestamp) : Decidable (ValidTimestamp t) := by
  unfold ValidTimestamp; infer_instance

def weekdayname : List (List Char) :=
  [['M', 'o', 'n'], ['T', 'u', 'e'], ['W', 'e', 'd'], ['T', 'h', 'u'],
   ['F', 'r', 'i'], ['S', 'a', 't'], ['S', 'u', 'n']]

/-- Month names, indexed from 1 as in the stdlib table (index 0 is a
placeholder that a valid timestamp never reaches). -/
def monthname : List (List Char) :=
  [['N', 'o', 'n'], ['J', 'a', 'n'], ['F', 'e', 'b'], ['M', 'a', 'r'],
   ['A', 'p', 'r'], ['M', 'a', 'y'], ['J', 'u', 'n'], ['J', 'u', 'l'],
   ['A', 'u', 'g'], ['S', 'e', 'p'], ['O', 'c', 't'], ['N', 'o', 'v'],
   ['D', 'e', 'c']]

def weekdayName (w : Nat) : List Char := weekdayname.getD w ['M', 'o', 'n']

def monthName (m : Nat) : List Char := monthname.getD m ['N', 'o', 'n']

/-- Zero-padded two-digit decimal rendering (`%02d`). -/
def dd2 (n : Nat) : List Char := [Nat.digitChar (n / 10 % 10), Nat.digitChar (n % 10)]

/-- Four-digit decimal rendering (`%4d` for a four-digit year). -/
def dd4 (n : Nat) : List Char :=
  [Nat.digitChar (n / 1000 % 10), Nat.digitChar (n / 100 % 10),
   Nat.digitChar (n / 10 % 10), Nat.digitChar (n % 10)]

/-- Modelled from the spec: `BaseHTTPRequestHandler.date_time_string`
(stdlib, not in src), the canonical HTTP date
`"%s, %02d %3s %4d %02d:%02d:%02d GMT"`. -/
def date_time_string (t : HttpTimestamp) : String :=
  String.mk (weekdayName t.weekday ++ [',', ' '] ++ dd2 t.day ++ [' '] ++
    monthName t.month ++ [' '] ++ dd4 t.year ++ [' '] ++ dd2 t.hour ++ [':'] ++
    dd2 t.minute ++ [':'] ++ dd2 t.second ++ [' ', 'G', 'M', 'T'])

def charDigit (c : Char) : Option Nat :=
  if c.isDigit then some (c.toNat - 48) else none

def wkOf (l : List Char) : Option Nat := weekdayname.findIdx? (fun x => x == l)

def moOf (l : List Char) : Option Nat := monthname.findIdx? (fun x => x == l)

/-- Recognizer/decoder for the canonical HTTP date format: a 29-character
string `"Www, dd Mmm yyyy hh:mm:ss GMT"` with valid name and digit fields. -/
def parseDateList : List Char → Option HttpTimestamp
  | [a, b, c, ',', ' ', d1, d2, ' ', e, f, g, ' ', y1, y2, y3, y4, ' ',
     h1, h2, ':', i1, i2, ':', s1, s2, ' ', 'G', 'M', 'T'] =>
    match wkOf [a, b, c], moOf [e, f, g], charDigit d1, charDigit d2,
        charDigit y1, charDigit y2, charDigit y3, charDigit y4,
        charDigit h1, charDigit h2, charDigit i1, charDigit i2,
        charDigit s1, charDigit s2 with
    | some wd, some mo, some a1, some a2, some b1, some b2, some b3, some b4,
        some c1, some c2, some e1, some e2, some f1, some f2 =>
      some ⟨wd, a1 * 10 + a2, mo, b1 * 1000 + b2 * 100 + b3 * 10 + b4,
        c1 * 10 + c2, e1 * 10 + e2, f1 * 10 + f2⟩
    | _, _, _, _, _, _, _, _, _, _, _, _, _, _ => none
  | _ => none

def parseHttpDate (s : String) : Option HttpTimestamp := parseDateList s.toList

/-! ## `handle_request` -/

/-- `str.title()` on the ASCII range: a letter is uppercased when the
previous character is not a letter, lowercased otherwise. -/
def titleAux : Bool → List Char → List Char
  | _, [] => []
  | prevAlpha, c :: cs =>
    (if c.isAlpha then (if prevAlpha then c.toLower else c.toUpper) else c) ::
      titleAux c.isAlpha cs

/-- The `RequestShim` header-key canonicalization
`k.replace("_", "-").title()`. -/
def canonKey (k : String) : String :=
  String.mk (titleAux false (k.toList.map (fun c => if c = '_' then '-' else c)))

/-- A dict built from a sequence of pairs (`{k: v for ...}`): insertion
order, later assignment to the same key overwrites in place. -/
def dictOfPairs (ps : List (String × String)) : List (String × String) :=
  ps.foldl (fun d p => setItem d p.1 p.2) []

/-- Modelled from the spec: `urllib.parse.unquote` (stdlib, not in src),
percent-decoding of the path; byte-level ASCII model (no UTF-8 multi-byte
recombination). -/
def isHexChar (c : Char) : Bool :=
  c.isDigit || ('a' ≤ c && c ≤ 'f') || ('A' ≤ c && c ≤ 'F')

def unquoteAux : Nat → List Char → List Char
  | 0, l => l
  | _ + 1, [] => []
  | fuel + 1, '%' :: a :: b :: rest =>
    match isHexChar a, isHexChar b with
    | true, true =>
      Char.ofNat (16 * (if a.isDigit then a.toNat - 48 else a.toLower.toNat - 87) +
        (if b.isDigit then b.toNat - 48 else b.toLower.toNat - 87)) :: unquoteAux fuel rest
    | _, _ => '%' :: unquoteAux fuel (a :: b :: rest)
  | fuel + 1, c :: cs => c :: unquoteAux fuel cs

def unquote (s : String) : String := String.mk (unquoteAux s.toList.length s.toList)

def lowerKey (s : String) : String := String.mk (s.toList.map Char.toLower)

/-- Case-insensitive header lookup with default `""`
(`self.headers.get("User-Agent", "")` on an `email.message.Message`). -/
def lookupCI : List (String × String) → String → String
  | [], _ => ""
  | p :: l, k => if lowerKey p.1 == lowerKey k then p.2 else lookupCI l k

/-- Strip surrounding whitespace (the stripping `int()` performs). -/
def stripWs (l : List Char) : List Char :=
  ((l.dropWhile (fun c => c.isWhitespace)).reverse.dropWhile
    (fun c => c.isWhitespace)).reverse

/-- Accumulate a decimal digit run; `none` when a non-digit appears or the
run is empty. -/
def digitsVal : List Char → Option Nat → Option Nat
  | [], acc => acc
  | c :: cs, acc =>
    if c.isDigit then digitsVal cs (some (acc.getD 0 * 10 + (c.toNat - 48)))
    else none

/-- `int(s)` on the Content-Length header value: optionally signed decimal
integer with surrounding whitespace stripped (ASCII model; digit-group
underscores are not modelled), `ValueError` otherwise. -/
def pyInt (s : String) : Except PyErr Int :=
  match stripWs s.toList with
  | '-' :: rest =>
    match digitsVal rest none with
    | some n => .ok (-(n : Int))
    | none => .error .valueError
  | '+' :: rest =>
    match digitsVal rest none with
    | some n => .ok (n : Int)
    | none => .error .valueError
  | l =>
    match digitsVal l none with
    | some n => .ok (n : Int)
    | none => .error .valueError

/-- A UTF-8 continuation byte. -/
def isCont (b : Nat) : Bool := 0x80 ≤ b && b ≤ 0xBF

/-- Strict UTF-8 decoding of a byte sequence (the `bytes.decode()` default):
1-4 byte sequences, continuation ranges per leading byte, overlong encodings
and surrogate code points rejected; `none` models `UnicodeDecodeError`.
Fuel-based recursion; fuel at least the length of the list suffices. -/
def utf8DecodeAux : Nat → List Nat → Option (List Char)
  | 0, [] => some []
  | 0, _ :: _ => none
  | _ + 1, [] => some []
  | fuel + 1, b :: bs =>
    if b < 0x80 then
      (utf8DecodeAux fuel bs).map (fun cs => Char.ofNat b :: cs)
    else if 0xC2 ≤ b ∧ b ≤ 0xDF then
      match bs with
      | b2 :: rest =>
        if isCont b2 then
          (utf8DecodeAux fuel rest).map
            (fun cs => Char.ofNat ((b - 0xC0) * 0x40 + (b2 - 0x80)) :: cs)
        else none
      | _ => none
    else if b = 0xE0 then
      match bs with
      | b2 :: b3 :: rest =>
        if (0xA0 ≤ b2 && b2 ≤ 0xBF) && isCont b3 then
          (utf8DecodeAux fuel rest).map (fun cs =>
            Char.ofNat ((b - 0xE0) * 0x1000 + (b2 - 0x80) * 0x40 + (b3 - 0x80)) :: cs)
        else none
      | _ => none
    else if (0xE1 ≤ b ∧ b ≤ 0xEC) ∨ b = 0xEE ∨ b = 0xEF then
      match bs with
      | b2 :: b3 :: rest =>
        if isCont b2 && isCont b3 then
          (utf8DecodeAux fuel rest).map (fun cs =>
            Char.ofNat ((b - 0xE0) * 0x1000 + (b2 - 0x80) * 0x40 + (b3 - 0x80)) :: cs)
        else none
      | _ => none
    else if b = 0xED then
      match bs with
      | b2 :: b3 :: rest =>
        if (0x80 ≤ b2 && b2 ≤ 0x9F) && isCont b3 then
          (utf8DecodeAux fuel rest).map (fun cs =>
            Char.ofNat ((b - 0xE0) * 0x1000 + (b2 - 0x80) * 0x40 + (b3 - 0x80)) :: cs)
        else none
      | _ => none
    else if b = 0xF0 then
      match bs with
      | b2 :: b3 :: b4 :: rest =>
        if ((0x90 ≤ b2 && b2 ≤ 0xBF) && isCont b3) && isCont b4 then
          (utf8DecodeAux fuel rest).map (fun cs =>
            Char.ofNat ((b - 0xF0) * 0x40000 + (b2 - 0x80) * 0x1000 +
              (b3 - 0x80) * 0x40 + (b4 - 0x80)) :: cs)
        else none
      | _ => none
    else if 0xF1 ≤ b ∧ b ≤ 0xF3 then
      match bs with
      | b2 :: b3 :: b4 :: rest =>
        if (isCont b2 && isCont b3) && isCont b4 then
          (utf8DecodeAux fuel rest).map (fun cs =>
            Char.ofNat ((b - 0xF0) * 0x40000 + (b2 - 0x80) * 0x1000 +
              (b3 - 0x80) * 0x40 + (b4 - 0x80)) :: cs)
        else none
      | _ => none
    else if b = 0xF4 then
      match bs with
      | b2 :: b3 :: b4 :: rest =>
        if ((0x80 ≤ b2 && b2 ≤ 0x8F) && isCont b3) && isCont b4 then
          (utf8DecodeAux fuel rest).map (fun cs =>
            Char.ofNat ((b - 0xF0) * 0x40000 + (b2 - 0x80) * 0x1000 +
              (b3 - 0x80) * 0x40 + (b4 - 0x80)) :: cs)
        else none
      | _ => none
    else none

def utf8Decode (bs : List Nat) : Option (List Char) := utf8DecodeAux bs.length bs

/-- `self.rfile.read(content_length)` on the buffered request stream: a
non-negative count reads up to that many bytes; a negative count reads to the
end of the stream (EOF), as Python's `read` does. -/
def pyRead (stream : List Nat) (n : Int) : List Nat :=
  if n < 0 then stream else stream.take n.toNat

/-- `bytes.decode()`: strict UTF-8, raising `UnicodeDecodeError` on invalid
input. -/
def pyDecode (bs : List Nat) : Except PyErr String :=
  match utf8Decode bs with
  | some cs => .ok (String.mk cs)
  | none => .error .unicodeDecodeError

/-- `int(request.headers.get('Content-Length', 0))`: the canonicalized shim
headers are consulted; an absent header yields the integer default `0`
directly, a present one is parsed by `int()`. -/
def contentLengthOf (rawHeaders : List (String × String)) : Except PyErr Int :=
  match lookup? (dictOfPairs (rawHeaders.map (fun p => (canonKey p.1, p.2))))
      "Content-Length" with
  | none => Except.ok 0
  | some s => pyInt s

/-- The `log_data` record handed to `isc_agent.add_to_queue`. -/
structure LogRecord where
  time : String
  headers : List (String × String)
  sip : String
  dip : String
  method : String
  url : String
  data : String
  useragent : String
  version : String
  response_id : Nat
  signature_id : Option Signature
deriving DecidableEq, Repr

/-- The observable outcome of one `handle_request` call: the chosen response
id and the record enqueued to the telemetry sink (`none` when nothing was
enqueued). -/
structure HandleOutcome where
  response_id : Nat
  queued : Option LogRecord
deriving DecidableEq, Repr

/-- `HoneypotRequestHandler.handle_request`.

Parameters stand for the environment: `score` is the external
`core.score_request`; `k` the random draw; `nowIso` the
`datetime.datetime.now().strftime(...)` value; `emitErr` an exception raised
by the socket write while emitting the response (`none` when the write
succeeds); `rfileContent` the readable request body byte stream.  The `try`
block runs `responder`, then parses the declared `Content-Length`
(`ValueError` on a non-integer value), reads the body up to it (to EOF when
it is negative) and UTF-8 decodes it (`UnicodeDecodeError` on invalid
bytes), assembles `log_data` and enqueues it; only `BrokenPipeError` is
caught (and logged), every other exception propagates. -/
def handle_request (sigs : List Signature) (score : Signature → Int)
    (responses : List (Nat × Response)) (tags : List (String × String))
    (dateNow nowIso : String) (rawPath method remote_addr my_ip request_version : String)
    (rawHeaders : List (String × String)) (k : Nat)
    (emitErr : Option PyErr) (rfileContent : List Nat) :
    Except PyErr HandleOutcome :=
  let path := unquote rawPath
  let reqHeaders := dictOfPairs (rawHeaders.map (fun p => (canonKey p.1, p.2)))
  match chooseResponseId sigs score k with
  | .error e => .error e
  | .ok response_id =>
    match responder responses tags dateNow response_id with
    | .error e => if e = .brokenPipe then .ok ⟨response_id, none⟩ else .error e
    | .ok _ =>
      match emitErr with
      | some e => if e = .brokenPipe then .ok ⟨response_id, none⟩ else .error e
      | none =>
        match contentLengthOf rawHeaders with
        | .error e => if e = .brokenPipe then .ok ⟨response_id, none⟩ else .error e
        | .ok content_length =>
          match pyDecode (pyRead rfileContent content_length) with
          | .error e => if e = .brokenPipe then .ok ⟨response_id, none⟩ else .error e
          | .ok post_data =>
            let record : LogRecord := {
              time := nowIso
              headers := reqHeaders
              sip := remote_addr
              dip := my_ip
              method := method
              url := path
              data := post_data
              useragent := lookupCI rawHeaders "User-Agent"
              version := request_version
              response_id := response_id
              signature_id := (selectBest sigs score).2 }
            .ok ⟨response_id, some record⟩

/-! ## Shutdown handler -/

/-- The release actions performed by `shutdown_handler` (log lines elided):
`isc_agent.shutdown()`, `stun_mgr.shutdown()`, `sys.exit(0)`. -/
inductive ReleaseStep
  | agentShutdown
  | stunnelShutdown
  | processExit
deriving DecidableEq, Repr

/-- The body of `shutdown_handler` as the sequence of release actions it
performs.  There is no in-progress guard flag anywhere in the handler. -/
def shutdownHandlerSteps : List ReleaseStep :=
  [.agentShutdown, .stunnelShutdown, .processExit]

/-- Trace of release actions when a second shutdown signal is delivered after
the first handler invocation has completed `i` of its steps: CPython runs the
Python-level handler on the main thread at the next bytecode boundary, which
re-enters `shutdown_handler`; the second invocation runs its whole body
(ending in `sys.exit`) before the interrupted first invocation could resume,
and nothing in the handler suppresses the repetition. -/
def traceWithSecondSignal (i : Nat) : List ReleaseStep :=
  shutdownHandlerSteps.take i ++ shutdownHandlerSteps

/-! ## Helper lemmas: the dict model -/

theorem lookup?_setItem_self (l : List (String × String)) (k v : String) :
    lookup? (setItem l k v) k = some v := by
  induction l with
  | nil => simp [setItem, lookup?]
  | cons p l ih =>
    by_cases h : p.1 = k
    · simp [setItem, lookup?, h]
    · simp [setItem, lookup?, h, ih]

theorem lookup?_setItem_ne (l : List (String × String)) (k v k' : String) (h : k' ≠ k) :
    lookup? (setItem l k v) k' = lookup? l k' := by
  have h' : k ≠ k' := Ne.symm h
  induction l with
  | nil => simp [setItem, lookup?, h']
  | cons p l ih =>
    by_cases hp : p.1 = k
    · simp [setItem, lookup?, hp, h']
    · simp [setItem, lookup?, hp, ih]

theorem lookupD_setItem_self (l : List (String × String)) (k v d : String) :
    lookupD (setItem l k v) k d = v := by
  simp [lookupD, lookup?_setItem_self]

theorem lookupD_setItem_ne (l : List (String × String)) (k v k' d : String) (h : k' ≠ k) :
    lookupD (setItem l k v) k' d = lookupD l k' d := by
  simp [lookupD, lookup?_setItem_ne l k v k' h]

theorem lookup?_map_value (f : String → String) (l : List (String × String)) (k : String) :
    lookup? (l.map (fun p => (p.1, f p.2))) k = (lookup? l k).map f := by
  induction l with
  | nil => simp [lookup?]
  | cons p l ih =>
    by_cases h : p.1 = k
    · simp [lookup?, h]
    · simp [lookup?, h, ih]

theorem lookup?_filter_key (a k : String) (h : k ≠ a) (l : List (String × String)) :
    lookup? (l.filter (fun p => p.1 != a)) k = lookup? l k := by
  induction l with
  | nil => simp
  | cons p l ih =>
    by_cases hp : p.1 = a
    · simp [lookup?, hp, (Ne.symm h : a ≠ k), ih]
    · simp [lookup?, hp, ih]

theorem keys_sent_ne (a : String) (f : String → String) (l : List (String × String)) :
    ∀ p ∈ (l.filter (fun q => q.1 != a)).map (fun q => (q.1, f q.2)), p.1 ≠ a := by
  intro p hp
  simp only [List.mem_map, List.mem_filter, bne_iff_ne] at hp
  obtain ⟨q, ⟨_, hq⟩, rfl⟩ := hp
  exact hq

/-! ## Helper lemmas: the template engine -/

theorem findallAux_nil (fuel : Nat) : findallAux fuel [] = [] := by
  cases fuel <;> rfl

theorem replaceAux_nil (pat rep : List Char) (fuel : Nat) :
    replaceAux pat rep fuel [] = [] := by
  cases fuel <;> rfl

theorem matchMarkerAt_ne_star (c : Char) (cs : List Char) (h : c ≠ '*') :
    matchMarkerAt (c :: cs) = none := by
  match cs with
  | [] => rfl
  | [_] => rfl
  | b :: d :: cs' => simp [matchMarkerAt, h]

theorem findallAux_no_star (fuel : Nat) :
    ∀ l : List Char, (∀ c ∈ l, c ≠ '*') → findallAux fuel l = [] := by
  induction fuel with
  | zero => intro l _; rfl
  | succ n ih =>
    intro l h
    match l with
    | [] => rfl
    | c :: cs =>
      have hc : c ≠ '*' := h c (by simp)
      simp only [findallAux, matchMarkerAt_ne_star c cs hc]
      exact ih cs (fun x hx => h x (by simp [hx]))

theorem findall_no_star (s : String) (h : ∀ c ∈ s.toList, c ≠ '*') : findall s = [] :=
  findallAux_no_star _ _ h

theorem renderCore_no_markers (env : List (String × String)) (t : String)
    (h : findall t = []) : renderCore env t = t := by
  unfold renderCore
  rw [h]
  rfl

theorem takeWhileList_word (name : List Char) (hw : ∀ c ∈ name, isWordChar c = true) :
    takeWhileList isWordChar (name ++ ['*', '}', '*']) = (name, ['*', '}', '*']) := by
  induction name with
  | nil => rfl
  | cons c cs ih =>
    have hc : isWordChar c = true := hw c (by simp)
    have := ih (fun x hx => hw x (by simp [hx]))
    simp [takeWhileList, hc, this]

theorem matchMarkerAt_markerOf (name : List Char) (hne : name ≠ [])
    (hw : ∀ c ∈ name, isWordChar c = true) :
    matchMarkerAt ('*' :: '{' :: '*' :: (name ++ ['*', '}', '*'])) = some (name, []) := by
  simp [matchMarkerAt, takeWhileList_word name hw, hne]

theorem findallAux_markerOf (name : List Char) (hne : name ≠ [])
    (hw : ∀ c ∈ name, isWordChar c = true) :
    ∀ fuel : Nat, 1 ≤ fuel → findallAux fuel (markerOf name) = [name] := by
  intro fuel h1
  match fuel, h1 with
  | m + 1, _ =>
    show findallAux (m + 1) ('*' :: '{' :: '*' :: (name ++ ['*', '}', '*'])) = [name]
    simp only [findallAux, matchMarkerAt_markerOf name hne hw]
    exact congrArg _ (findallAux_nil m)

theorem findall_markerOf (name : List Char) (hne : name ≠ [])
    (hw : ∀ c ∈ name, isWordChar c = true) :
    findall (String.mk (markerOf name)) = [name] := by
  unfold findall
  exact findallAux_markerOf name hne hw _ (by simp [markerOf])

theorem isPrefixOf_self (l : List Char) : l.isPrefixOf l = true := by
  induction l with
  | nil => rfl
  | cons c cs ih => simp [List.isPrefixOf, ih]

theorem replaceAux_whole (pat rep : List Char) (hne : pat ≠ []) (fuel : Nat) :
    replaceAux pat rep (fuel + 1) pat = rep := by
  match pat, hne with
  | c :: cs, _ =>
    simp only [replaceAux, isPrefixOf_self, if_true]
    rw [List.drop_length, replaceAux_nil, List.append_nil]

theorem renderCore_markerOf (env : List (String × String)) (name : List Char)
    (hne : name ≠ []) (hw : ∀ c ∈ name, isWordChar c = true) :
    renderCore env (String.mk (markerOf name)) = lookupD env (String.mk name) "" := by
  unfold renderCore
  rw [findall_markerOf name hne hw]
  show String.mk (replaceAux (markerOf name) (lookupD env (String.mk name) "").toList
    (markerOf name).length (markerOf name)) = _
  have hlen : (markerOf name).length = (name.length + 5) + 1 := by
    simp [markerOf]
  rw [hlen, replaceAux_whole (markerOf name) _ (by simp [markerOf]) _]
  rfl

theorem foldl_replace_ext (e1 e2 : List (String × String))
    (h : ∀ n, lookupD e1 n "" = lookupD e2 n "") :
    ∀ (names : List (List Char)) (acc : List Char),
      names.foldl (fun t name =>
        replaceAux (markerOf name) (lookupD e1 (String.mk name) "").toList t.length t) acc =
      names.foldl (fun t name =>
        replaceAux (markerOf name) (lookupD e2 (String.mk name) "").toList t.length t) acc := by
  intro names
  induction names with
  | nil => intro acc; rfl
  | cons n ns ih =>
    intro acc
    simp only [List.foldl_cons]
    rw [h (String.mk n)]
    exact ih _

theorem renderCore_ext (e1 e2 : List (String × String)) (t : String)
    (h : ∀ n, lookupD e1 n "" = lookupD e2 n "") : renderCore e1 t = renderCore e2 t := by
  unfold renderCore
  dsimp only
  exact congrArg String.mk (foldl_replace_ext e1 e2 h _ _)

/-! ## Helper lemmas: decimal renderings contain no markers -/

theorem digitChar_ne_star : ∀ m : Nat, m < 10 → Nat.digitChar m ≠ '*' := by decide

theorem toDigitsCore_ne_star : ∀ (fuel n : Nat) (ds : List Char),
    (∀ c ∈ ds, c ≠ '*') → ∀ c ∈ Nat.toDigitsCore 10 fuel n ds, c ≠ '*' := by
  intro fuel
  induction fuel with
  | zero => intro n ds h; simpa [Nat.toDigitsCore] using h
  | succ m ih =>
    intro n ds h
    have hd : Nat.digitChar (n % 10) ≠ '*' :=
      digitChar_ne_star _ (Nat.mod_lt _ (by norm_num))
    have hcons : ∀ c ∈ Nat.digitChar (n % 10) :: ds, c ≠ '*' := by
      intro c hc
      rcases List.mem_cons.mp hc with rfl | hc
      · exact hd
      · exact h c hc
    simp only [Nat.toDigitsCore]
    split
    · exact hcons
    · exact ih _ _ hcons

theorem toString_nat_ne_star (n : Nat) : ∀ c ∈ (toString n).toList, c ≠ '*' := by
  show ∀ c ∈ (Nat.toDigits 10 n).asString.toList, c ≠ '*'
  exact toDigitsCore_ne_star (n + 1) n [] (by simp)

theorem apply_customizations_toString (tags : List (String × String)) (dateNow : String)
    (n : Nat) : apply_customizations tags dateNow (toString n) = toString n := by
  unfold apply_customizations
  exact renderCore_no_markers _ _ (findall_no_star _ (toString_nat_ne_star n))

/-! ## Helper lemmas: the selection scan -/

/-- The maximum score over the snapshot, folded from the loop's initial
`best_score = -1`. -/
def maxScore (sigs : List Signature) (score : Signature → Int) : Int :=
  sigs.foldl (fun m s => max m (score s)) (-1)

theorem le_foldlMax (score : Signature → Int) :
    ∀ (l : List Signature) (b : Int), b ≤ l.foldl (fun m s => max m (score s)) b := by
  intro l
  induction l with
  | nil => intro b; exact le_refl b
  | cons s rest ih =>
    intro b
    simp only [List.foldl_cons]
    exact le_trans (le_max_left _ _) (ih _)

theorem score_le_foldlMax (score : Signature → Int) :
    ∀ (l : List Signature) (b : Int) (x : Signature), x ∈ l →
      score x ≤ l.foldl (fun m s => max m (score s)) b := by
  intro l
  induction l with
  | nil => intro b x hx; exact absurd hx (List.not_mem_nil x)
  | cons s rest ih =>
    intro b x hx
    simp only [List.foldl_cons]
    rcases List.mem_cons.mp hx with rfl | hx
    · exact le_trans (le_max_right _ _) (le_foldlMax score rest _)
    · exact ih _ x hx

theorem foldlMax_of_all_le (score : Signature → Int) :
    ∀ (l : List Signature) (b : Int), (∀ s ∈ l, score s ≤ b) →
      l.foldl (fun m s => max m (score s)) b = b := by
  intro l
  induction l with
  | nil => intro b _; rfl
  | cons s rest ih =>
    intro b h
    simp only [List.foldl_cons]
    rw [max_eq_left (h s (by simp))]
    exact ih b (fun t ht => h t (by simp [ht]))

theorem scanBest_of_all_le (score : Signature → Int) :
    ∀ (l : List Signature) (b : Int) (cur : Option Signature),
      (∀ s ∈ l, score s ≤ b) → scanBest score l (b, cur) = (b, cur) := by
  intro l
  induction l with
  | nil => intro b cur _; rfl
  | cons s rest ih =>
    intro b cur h
    show scanBest score rest (if b < score s then (score s, some s) else (b, cur)) = (b, cur)
    rw [if_neg (not_lt.mpr (h s (by simp)))]
    exact ih b cur (fun t ht => h t (by simp [ht]))

theorem scanBest_eq_find (score : Signature → Int) :
    ∀ (l : List Signature) (b : Int) (cur : Option Signature),
      (∃ s ∈ l, b < score s) →
      scanBest score l (b, cur) =
        (l.foldl (fun m s => max m (score s)) b,
         l.find? (fun s => score s == l.foldl (fun m t => max m (score t)) b)) := by
  intro l
  induction l with
  | nil => intro b cur h; exact absurd h (by simp)
  | cons s rest ih =>
    intro b cur hex
    show scanBest score rest (if b < score s then (score s, some s) else (b, cur)) = _
    simp only [List.foldl_cons]
    by_cases hs : b < score s
    · rw [if_pos hs, max_eq_right hs.le]
      by_cases hex2 : ∃ t ∈ rest, score s < score t
      · rw [ih (score s) (some s) hex2]
        have hM : score s < rest.foldl (fun m t => max m (score t)) (score s) := by
          obtain ⟨t, ht, hlt⟩ := hex2
          exact lt_of_lt_of_le hlt (score_le_foldlMax score rest _ t ht)
        rw [List.find?_cons_of_neg _ (by simp [beq_iff_eq]; exact ne_of_lt hM)]
      · push_neg at hex2
        rw [scanBest_of_all_le score rest (score s) (some s) hex2,
          foldlMax_of_all_le score rest (score s) hex2]
        rw [List.find?_cons_of_pos _ (by simp)]
    · rw [if_neg hs, max_eq_left (not_lt.mp hs)]
      have hex2 : ∃ t ∈ rest, b < score t := by
        obtain ⟨t, ht, hlt⟩ := hex
        rcases List.mem_cons.mp ht with rfl | hmem
        · exact absurd hlt hs
        · exact ⟨t, hmem, hlt⟩
      rw [ih b cur hex2]
      have hM : score s < rest.foldl (fun m t => max m (score t)) b := by
        obtain ⟨t, ht, hlt⟩ := hex2
        exact lt_of_le_of_lt (not_lt.mp hs)
          (lt_of_lt_of_le hlt (score_le_foldlMax score rest b t ht))
      rw [List.find?_cons_of_neg _ (by simp [beq_iff_eq]; exact ne_of_lt hM)]

theorem scanBest_snd_mem (score : Signature → Int) :
    ∀ (l : List Signature) (b : Int) (cur : Option Signature),
      (scanBest score l (b, cur)).2 = cur ∨
        ∃ s ∈ l, (scanBest score l (b, cur)).2 = some s := by
  intro l
  induction l with
  | nil => intro b cur; exact Or.inl rfl
  | cons s rest ih =>
    intro b cur
    show (scanBest score rest (if b < score s then (score s, some s) else (b, cur))).2 = cur ∨
      ∃ x ∈ s :: rest,
        (scanBest score rest (if b < score s then (score s, some s) else (b, cur))).2 = some x
    by_cases hs : b < score s
    · rw [if_pos hs]
      rcases ih (score s) (some s) with h | ⟨t, ht, h⟩
      · exact Or.inr ⟨s, by simp, h⟩
      · exact Or.inr ⟨t, by simp [ht], h⟩
    · rw [if_neg hs]
      rcases ih b cur with h | ⟨t, ht, h⟩
      · exact Or.inl h
      · exact Or.inr ⟨t, by simp [ht], h⟩

theorem selectBest_snd_mem (sigs : List Signature) (score : Signature → Int)
    (s : Signature) (h : (selectBest sigs score).2 = some s) : s ∈ sigs := by
  rcases scanBest_snd_mem score sigs (-1) none with h0 | ⟨t, ht, h2⟩
  · rw [show (selectBest sigs score).2 = (scanBest score sigs (-1, none)).2 from rfl, h0] at h
    exact absurd h (by simp)
  · rw [show (selectBest sigs score).2 = (scanBest score sigs (-1, none)).2 from rfl, h2] at h
    rw [← Option.some.inj h]
    exact ht

/-! ## Helper lemmas: the HTTP date format -/

theorem charDigit_digitChar : ∀ m : Nat, m < 10 → charDigit (Nat.digitChar m) = some m := by
  decide

theorem wk_roundtrip : ∀ w : Nat, w < 7 → wkOf (weekdayName w) = some w := by decide

theorem mo_roundtrip : ∀ m : Nat, m < 13 → 1 ≤ m → moOf (monthName m) = some m := by decide

theorem weekdayName_shape : ∀ w : Nat, w < 7 → ∃ a b c, weekdayName w = [a, b, c] := by
  intro w hw
  interval_cases w <;> exact ⟨_, _, _, rfl⟩

theorem monthName_shape : ∀ m : Nat, 1 ≤ m → m ≤ 12 → ∃ a b c, monthName m = [a, b, c] := by
  intro m hm1 hm2
  interval_cases m <;> exact ⟨_, _, _, rfl⟩

theorem parse_date_time_string (t : HttpTimestamp) (h : ValidTimestamp t) :
    parseHttpDate (date_time_string t) = some t := by
  obtain ⟨wd, dd, mo, yy, hh, mi, ss⟩ := t
  simp only [ValidTimestamp] at h
  obtain ⟨hw, hd1, hd2, hm1, hm2, hy1, hy2, hhh, hmm, hss⟩ := h
  obtain ⟨a, b, c, hwk⟩ := weekdayName_shape wd hw
  obtain ⟨e, f, g, hmo⟩ := monthName_shape mo hm1 hm2
  have hwk2 : wkOf [a, b, c] = some wd := hwk ▸ wk_roundtrip wd hw
  have hmo2 : moOf [e, f, g] = some mo := hmo ▸ mo_roundtrip mo (by omega) hm1
  show parseDateList (weekdayName wd ++ [',', ' '] ++ dd2 dd ++ [' '] ++
    monthName mo ++ [' '] ++ dd4 yy ++ [' '] ++ dd2 hh ++ [':'] ++
    dd2 mi ++ [':'] ++ dd2 ss ++ [' ', 'G', 'M', 'T']) = some ⟨wd, dd, mo, yy, hh, mi, ss⟩
  rw [hwk, hmo]
  simp only [dd2, dd4, List.cons_append, List.nil_append]
  rw [parseDateList]
  rw [hwk2, hmo2]
  rw [charDigit_digitChar (dd / 10 % 10) (Nat.mod_lt _ (by norm_num)),
    charDigit_digitChar (dd % 10) (Nat.mod_lt _ (by norm_num)),
    charDigit_digitChar (yy / 1000 % 10) (Nat.mod_lt _ (by norm_num)),
    charDigit_digitChar (yy / 100 % 10) (Nat.mod_lt _ (by norm_num)),
    charDigit_digitChar (yy / 10 % 10) (Nat.mod_lt _ (by norm_num)),
    charDigit_digitChar (yy % 10) (Nat.mod_lt _ (by norm_num)),
    charDigit_digitChar (hh / 10 % 10) (Nat.mod_lt _ (by norm_num)),
    charDigit_digitChar (hh % 10) (Nat.mod_lt _ (by norm_num)),
    charDigit_digitChar (mi / 10 % 10) (Nat.mod_lt _ (by norm_num)),
    charDigit_digitChar (mi % 10) (Nat.mod_lt _ (by norm_num)),
    charDigit_digitChar (ss / 10 % 10) (Nat.mod_lt _ (by norm_num)),
    charDigit_digitChar (ss % 10) (Nat.mod_lt _ (by norm_num))]
  dsimp only
  simp only [Option.some.injEq, HttpTimestamp.mk.injEq, true_and]
  omega

theorem date_time_string_inj (t1 t2 : HttpTimestamp)
    (h1 : ValidTimestamp t1) (h2 : ValidTimestamp t2) (hne : t1 ≠ t2) :
    date_time_string t1 ≠ date_time_string t2 := by
  intro h
  apply hne
  have e1 := parse_date_time_string t1 h1
  rw [h, parse_date_time_string t2 h2] at e1
  exact (Option.some.inj e1).symm

/-! ## Helper lemma: `responder` on a resolvable response id -/

theorem responder_ok (responses : List (Nat × Response)) (tags : List (String × String))
    (dateNow : String) (response_id : Nat) (resp : Response)
    (h : tableGet responses response_id = some resp) :
    responder responses tags dateNow response_id = Except.ok {
      status := resp.status_code.getD
        (if ("PAGE NOT FOUND." : String).length <
            (apply_customizations tags dateNow (resp.body.getD "Not Found")).utf8ByteSize
          then 200 else 404)
      serverHeader :=
        match lookup? resp.headers "Server" with
        | some s => if s = "" then none else some s
        | none => none
      headers := ((setItem (setItem resp.headers "Content-Type"
            (lookupD resp.headers "Content-Type" "text/html")) "Content-Length"
            (toString (apply_customizations tags dateNow
              (resp.body.getD "Not Found")).utf8ByteSize)).filter
          (fun p => p.1 != "Server")).map
        (fun p => (p.1, apply_customizations tags dateNow p.2))
      body := apply_customizations tags dateNow (resp.body.getD "Not Found") } := by
  unfold responder
  rw [h]

/-! ## Claims -/

/-- C1: For every request handled by `handle_request`: if the best score over
all signatures in the active snapshot is `> 0` and a best signature was found
(a truthy dict), the chosen response id is drawn from that signature's
candidate response list (`best_signature.get("responses", [1])`); otherwise
the chosen response id equals the fixed default `1`.  Hence for all requests
the chosen response id belongs to the best-scoring signature's candidate list
or equals `1`.  (Hypothesis: candidate lists are non-empty, as the data model
requires; an empty list would make `random.choice` raise `IndexError`.) -/
theorem c1_chosen_response_id_in_best_candidates_or_default
    (sigs : List Signature) (score : Signature → Int) (k : Nat)
    (hne : ∀ s ∈ sigs, s.responses.getD [1] ≠ []) :
    ∃ r, chooseResponseId sigs score k = Except.ok r ∧
      ((0 < (selectBest sigs score).1 ∧
        ∃ s, (selectBest sigs score).2 = some s ∧ r ∈ s.responses.getD [1]) ∨ r = 1) := by
  have hmem : ∀ s, (selectBest sigs score).2 = some s → s ∈ sigs :=
    fun s h => selectBest_snd_mem sigs score s h
  unfold chooseResponseId
  rcases hsel : selectBest sigs score with ⟨bs, bsig⟩
  rw [hsel] at hmem
  cases bsig with
  | none => exact ⟨1, rfl, Or.inr rfl⟩
  | some s =>
    dsimp only
    by_cases hc : sigTruthy s = true ∧ 0 < bs
    · rw [if_pos hc]
      have hcand := hne s (hmem s rfl)
      rcases hl : s.responses.getD [1] with _ | ⟨x, xs⟩
      · exact absurd hl hcand
      · refine ⟨(x :: xs).get ⟨k % (xs.length + 1), Nat.mod_lt _ (Nat.succ_pos _)⟩,
          rfl, Or.inl ⟨hc.2, s, rfl, ?_⟩⟩
        rw [hl]
        exact List.get_mem _ _ _
    · rw [if_neg hc]
      exact ⟨1, rfl, Or.inr rfl⟩

theorem c1_witness :
    (∀ s ∈ [Signature.mk 1 (some [7, 8]) true], s.responses.getD [1] ≠ []) ∧
    ∃ r, chooseResponseId [Signature.mk 1 (some [7, 8]) true] (fun _ => 5) 0 = Except.ok r ∧
      ((0 < (selectBest [Signature.mk 1 (some [7, 8]) true] (fun _ => 5)).1 ∧
        ∃ s, (selectBest [Signature.mk 1 (some [7, 8]) true] (fun _ => 5)).2 = some s ∧
          r ∈ s.responses.getD [1]) ∨ r = 1) :=
  ⟨by decide, c1_chosen_response_id_in_best_candidates_or_default
    [Signature.mk 1 (some [7, 8]) true] (fun _ => 5) 0 (by decide)⟩

/-- C2: For every request, when two or more signatures attain the equal
maximal score, the dispatch loop deterministically selects the signature
appearing first in the configured signature order: the linear scan uses a
strictly-greater comparison, so only a strictly larger score replaces the
current best candidate.  Formally: whenever any signature at all scores above
the loop's initial `best_score = -1` (so that a best candidate exists), the
scan returns the maximal score together with the *first* signature in
snapshot order attaining that maximum. -/
theorem c2_first_signature_with_max_score_selected (sigs : List Signature)
    (score : Signature → Int) (h : ∃ s ∈ sigs, -1 < score s) :
    selectBest sigs score =
      (maxScore sigs score, sigs.find? (fun s => score s == maxScore sigs score)) := by
  unfold selectBest maxScore
  exact scanBest_eq_find score sigs (-1) none h

theorem c2_witness :
    (∃ s ∈ [Signature.mk 1 (some [2]) true, Signature.mk 2 (some [3]) true],
      -1 < (fun _ => (5 : Int)) s) ∧
    selectBest [Signature.mk 1 (some [2]) true, Signature.mk 2 (some [3]) true]
        (fun _ => (5 : Int)) =
      (maxScore [Signature.mk 1 (some [2]) true, Signature.mk 2 (some [3]) true]
          (fun _ => (5 : Int)),
       List.find? (fun s => (fun _ => (5 : Int)) s ==
          maxScore [Signature.mk 1 (some [2]) true, Signature.mk 2 (some [3]) true]
            (fun _ => (5 : Int)))
        [Signature.mk 1 (some [2]) true, Signature.mk 2 (some [3]) true]) :=
  ⟨by decide, c2_first_signature_with_max_score_selected
    [Signature.mk 1 (some [2]) true, Signature.mk 2 (some [3]) true]
    (fun _ => (5 : Int)) (by decide)⟩

/-- C3: For every response emitted by `responder`, the `Content-Length`
header value equals the UTF-8 byte length of the body *after*
`apply_customizations` has been applied to it, never the length of the body
before templating. -/
theorem c3_content_length_matches_templated_body (responses : List (Nat × Response))
    (tags : List (String × String)) (dateNow : String) (response_id : Nat) (resp : Response)
    (h : tableGet responses response_id = some resp) :
    ∃ out, responder responses tags dateNow response_id = Except.ok out ∧
      lookup? out.headers "Content-Length" =
        some (toString
          (apply_customizations tags dateNow (resp.body.getD "Not Found")).utf8ByteSize) := by
  refine ⟨_, responder_ok responses tags dateNow response_id resp h, ?_⟩
  show lookup? (List.map _ (List.filter _ _)) "Content-Length" = _
  rw [lookup?_map_value, lookup?_filter_key "Server" "Content-Length" (by decide),
    lookup?_setItem_self]
  show some (apply_customizations tags dateNow _) = _
  rw [apply_customizations_toString]

theorem c3_witness :
    tableGet [(1, Response.mk none [] (some "A*{*x*}*"))] 1 =
      some (Response.mk none [] (some "A*{*x*}*")) ∧
    ∃ out, responder [(1, Response.mk none [] (some "A*{*x*}*"))] [("x", "BB")] "D" 1 =
        Except.ok out ∧
      lookup? out.headers "Content-Length" =
        some (toString (apply_customizations [("x", "BB")] "D"
          ((Response.mk none [] (some "A*{*x*}*")).body.getD "Not Found")).utf8ByteSize) :=
  ⟨rfl, c3_content_length_matches_templated_body
    [(1, Response.mk none [] (some "A*{*x*}*"))] [("x", "BB")] "D" 1
    (Response.mk none [] (some "A*{*x*}*")) rfl⟩

/-- C4: For every response: if the resolved `Response` carries an explicit
status code, that code is sent; otherwise, if the templated body is longer
(in UTF-8 bytes) than the literal string `"PAGE NOT FOUND."`, the status
defaults to `200`, else to `404`. -/
theorem c4_status_code_resolution (responses : List (Nat × Response))
    (tags : List (String × String)) (dateNow : String) (response_id : Nat) (resp : Response)
    (h : tableGet responses response_id = some resp) :
    ∃ out, responder responses tags dateNow response_id = Except.ok out ∧
      out.status = resp.status_code.getD
        (if ("PAGE NOT FOUND." : String).length <
            (apply_customizations tags dateNow (resp.body.getD "Not Found")).utf8ByteSize
          then 200 else 404) :=
  ⟨_, responder_ok responses tags dateNow response_id resp h, rfl⟩

theorem c4_witness :
    tableGet [(1, Response.mk none [] (some "hi"))] 1 = some (Response.mk none [] (some "hi")) ∧
    ∃ out, responder [(1, Response.mk none [] (some "hi"))] [] "D" 1 = Except.ok out ∧
      out.status = (Response.mk none [] (some "hi")).status_code.getD
        (if ("PAGE NOT FOUND." : String).length <
            (apply_customizations [] "D"
              ((Response.mk none [] (some "hi")).body.getD "Not Found")).utf8ByteSize
          then 200 else 404) :=
  ⟨rfl, c4_status_code_resolution [(1, Response.mk none [] (some "hi"))] [] "D" 1
    (Response.mk none [] (some "hi")) rfl⟩

/-- C7: The claim says that a response id absent from the response table is
logged and replaced by a generic fallback (body `"PAGE NOT FOUND."`, no
custom headers, status 404), never fatally.  The code instead evaluates
`dict(isc_agent.responses.get(response_id))`, i.e. `dict(None)`, which raises
`TypeError` before the (dead) `if not resp` guard, so no fallback response is
ever produced: evaluating the embedded `responder` at a table that lacks the
requested id `2` yields the `TypeError`. -/
theorem c7_missing_response_id_raises_type_error :
    responder [(1, Response.mk (some 200) [] (some "hello"))] [] "D" 2 =
      Except.error PyErr.typeError := rfl

/-- C8 counterexample: the claim says that whenever the header map contains a
`Server` entry, the customized value is emitted exactly once.  With the
header map `[("Server", "")]` the value is falsy, `send_response` skips it,
and the remaining-header loop also skips the literal `Server` key, so no
`Server` header is emitted at all. -/
theorem c8_empty_server_header_counterexample :
    (responder [(1, Response.mk (some 200) [("Server", "")] (some "hello"))] [] "D" 1).map
      (fun out => (out.serverHeader, out.headers.filter (fun p => p.1 == "Server"))) =
    Except.ok (none, []) := rfl

/-- C8 (amended): when a Response's header map contains a `Server` header
with a *non-empty* (truthy) value, that customized value is sent by the
overridden `send_response` in place of the protocol layer's default
server/date identification (the override never emits a default), and the
literal `Server` entry is skipped by the remaining-header loop, so the
spoofed identity is emitted exactly once. -/
theorem c8_server_header_amended (responses : List (Nat × Response))
    (tags : List (String × String)) (dateNow : String) (response_id : Nat) (resp : Response)
    (v : String) (h : tableGet responses response_id = some resp)
    (hs : lookup? resp.headers "Server" = some v) (hv : v ≠ "") :
    ∃ out, responder responses tags dateNow response_id = Except.ok out ∧
      out.serverHeader = some v ∧ ∀ p ∈ out.headers, p.1 ≠ "Server" := by
  refine ⟨_, responder_ok responses tags dateNow response_id resp h, ?_, ?_⟩
  · show (match lookup? resp.headers "Server" with
      | some s => if s = "" then none else some s
      | none => none) = some v
    rw [hs]
    exact if_neg hv
  · exact keys_sent_ne "Server" _ _

theorem c8_witness :
    (tableGet [(1, Response.mk (some 200) [("Server", "nginx")] (some "hello"))] 1 =
        some (Response.mk (some 200) [("Server", "nginx")] (some "hello")) ∧
      lookup? (Response.mk (some 200) [("Server", "nginx")] (some "hello")).headers "Server" =
        some "nginx" ∧
      ("nginx" : String) ≠ "") ∧
    ∃ out, responder [(1, Response.mk (some 200) [("Server", "nginx")] (some "hello"))] [] "D" 1 =
        Except.ok out ∧
      out.serverHeader = some "nginx" ∧ ∀ p ∈ out.headers, p.1 ≠ "Server" :=
  ⟨⟨rfl, rfl, by decide⟩, c8_server_header_amended
    [(1, Response.mk (some 200) [("Server", "nginx")] (some "hello"))] [] "D" 1
    (Response.mk (some 200) [("Server", "nginx")] (some "hello")) "nginx" rfl rfl (by decide)⟩

/-- C5 counterexample: the claim says no well-formed marker survives in the
output of `apply_customizations`.  With the tag mapping `a ↦ "*{*x*}*"` the
text `"*{*a*}*"` renders to `"*{*x*}*"`, which is itself a well-formed marker
(the scan finds the name `x` in it): a marker contained in a replacement
value survives, because `re.sub` does not rescan replacement text and `x` was
not among the names found in the original text. -/
theorem c5_marker_survives_counterexample :
    apply_customizations [("a", "*{*x*}*")] "D" "*{*a*}*" = "*{*x*}*" ∧
    findall "*{*x*}*" = [['x']] := ⟨rfl, rfl⟩

/-- C5 (amended): `apply_customizations` replaces every literal marker of the
exact form `*{*name*}*` found by the scan with `tags[name]`, or with the
empty string when `name` is absent from the mapping (in particular, a text
that is exactly one marker renders to exactly that tag's value under the
date-augmented mapping); it is the identity (hence idempotent) on text
containing no markers.  However, well-formed markers contained in (or
recombined from) replacement values can survive in the output. -/
theorem c5_render_amended (tags : List (String × String)) (dateNow text : String)
    (name : List Char) (htext : findall text = [])
    (hname : name ≠ [] ∧ ∀ c ∈ name, isWordChar c = true) :
    (apply_customizations tags dateNow text = text ∧
      apply_customizations tags dateNow (apply_customizations tags dateNow text) =
        apply_customizations tags dateNow text) ∧
    apply_customizations tags dateNow (String.mk (markerOf name)) =
      lookupD (setItem tags "date" dateNow) (String.mk name) "" := by
  unfold apply_customizations
  have h1 : renderCore (setItem tags "date" dateNow) text = text :=
    renderCore_no_markers _ _ htext
  refine ⟨⟨h1, ?_⟩, renderCore_markerOf _ name hname.1 hname.2⟩
  rw [h1]
  exact h1

theorem c5_witness :
    (findall "hello" = [] ∧
      (['u', 'n', 'k', 'n', 'o', 'w', 'n'] ≠ ([] : List Char) ∧
        ∀ c ∈ ['u', 'n', 'k', 'n', 'o', 'w', 'n'], isWordChar c = true)) ∧
    ((apply_customizations [("banner", "Apache/2.4.41")] "D" "hello" = "hello" ∧
      apply_customizations [("banner", "Apache/2.4.41")] "D"
          (apply_customizations [("banner", "Apache/2.4.41")] "D" "hello") =
        apply_customizations [("banner", "Apache/2.4.41")] "D" "hello") ∧
    apply_customizations [("banner", "Apache/2.4.41")] "D"
        (String.mk (markerOf ['u', 'n', 'k', 'n', 'o', 'w', 'n'])) =
      lookupD (setItem [("banner", "Apache/2.4.41")] "date" "D")
        (String.mk ['u', 'n', 'k', 'n', 'o', 'w', 'n']) "") :=
  ⟨⟨rfl, by decide⟩, c5_render_amended [("banner", "Apache/2.4.41")] "D" "hello"
    ['u', 'n', 'k', 'n', 'o', 'w', 'n'] rfl (by decide)⟩

/-- C6: The reserved tag `date` is not read from the stored customization
mapping — a stored `("date", v)` entry never influences the output, because
`apply_customizations` overwrites it with the current `date_time_string()`
value on every call; two renders of the date marker at different (valid)
timestamps produce different literal values; and each such value conforms to
the canonical HTTP date format (the format decoder accepts it, recovering
the timestamp). -/
theorem c6_date_tag_dynamic (tags : List (String × String)) (v dateNow text : String)
    (t1 t2 : HttpTimestamp) (h1 : ValidTimestamp t1) (h2 : ValidTimestamp t2)
    (hne : t1 ≠ t2) :
    apply_customizations (("date", v) :: tags) dateNow text =
      apply_customizations tags dateNow text ∧
    apply_customizations tags (date_time_string t1) "*{*date*}*" ≠
      apply_customizations tags (date_time_string t2) "*{*date*}*" ∧
    parseHttpDate (apply_customizations tags (date_time_string t1) "*{*date*}*") = some t1 := by
  have hmark : ∀ (tg : List (String × String)) (d : String),
      apply_customizations tg d "*{*date*}*" = d := by
    intro tg d
    have hstr : ("*{*date*}*" : String) = String.mk (markerOf ['d', 'a', 't', 'e']) := rfl
    rw [hstr]
    show renderCore (setItem tg "date" d) (String.mk (markerOf ['d', 'a', 't', 'e'])) = d
    rw [renderCore_markerOf _ ['d', 'a', 't', 'e'] (by decide) (by decide)]
    exact lookupD_setItem_self tg "date" d ""
  refine ⟨?_, ?_, ?_⟩
  · show renderCore (setItem (("date", v) :: tags) "date" dateNow) text =
      renderCore (setItem tags "date" dateNow) text
    apply renderCore_ext
    intro n
    by_cases hn : n = "date"
    · rw [hn, lookupD_setItem_self, lookupD_setItem_self]
    · rw [lookupD_setItem_ne _ _ _ _ _ hn, lookupD_setItem_ne _ _ _ _ _ hn]
      simp [lookupD, lookup?, (Ne.symm hn : "date" ≠ n)]
  · rw [hmark, hmark]
    exact date_time_string_inj t1 t2 h1 h2 hne
  · rw [hmark]
    exact parse_date_time_string t1 h1

theorem c6_witness :
    (ValidTimestamp ⟨0, 6, 11, 1994, 8, 49, 37⟩ ∧ ValidTimestamp ⟨0, 6, 11, 1994, 8, 49, 38⟩ ∧
      (⟨0, 6, 11, 1994, 8, 49, 37⟩ : HttpTimestamp) ≠ ⟨0, 6, 11, 1994, 8, 49, 38⟩) ∧
    (apply_customizations [("date", "stale")] "D" "x" =
      apply_customizations [] "D" "x" ∧
    apply_customizations [] (date_time_string ⟨0, 6, 11, 1994, 8, 49, 37⟩) "*{*date*}*" ≠
      apply_customizations [] (date_time_string ⟨0, 6, 11, 1994, 8, 49, 38⟩) "*{*date*}*" ∧
    parseHttpDate (apply_customizations []
        (date_time_string ⟨0, 6, 11, 1994, 8, 49, 37⟩) "*{*date*}*") =
      some ⟨0, 6, 11, 1994, 8, 49, 37⟩) :=
  ⟨⟨by decide, by decide, by decide⟩, c6_date_tag_dynamic [] "stale" "D" "x"
    ⟨0, 6, 11, 1994, 8, 49, 37⟩ ⟨0, 6, 11, 1994, 8, 49, 38⟩ (by decide) (by decide) (by decide)⟩

/-- C9 counterexample: the claim says a LogRecord is handed to the telemetry
sink regardless of whether emitting the response succeeds or fails.  When a
`BrokenPipeError` is raised while emitting, the `except BrokenPipeError`
handler fires, but the record assembly and `add_to_queue` sit after
`self.responder(...)` *inside* the `try` block, so nothing is enqueued:
`queued = none`. -/
theorem c9_broken_pipe_drops_log_record :
    handle_request [] (fun _ => 0) [(1, Response.mk (some 200) [] (some "hi"))] [] "D" "T"
        "/x" "GET" "10.0.0.5" "192.0.2.7" "HTTP/1.1" [] 0 (some PyErr.brokenPipe)
        ([] : List Nat) =
      Except.ok { response_id := 1, queued := none } := rfl

/-- C9 (amended): the record reaches the telemetry sink only on the fully
successful path.  When emitting the response succeeds (no socket error), the
declared Content-Length parses as an integer, and the body read up to it
decodes as UTF-8, `handle_request` assembles the LogRecord (timestamp,
canonical headers, source/local address, method, percent-decoded path,
decoded body, user agent, protocol version, chosen response id, chosen
signature) and hands it to the telemetry sink.  When a `BrokenPipeError` is
raised while emitting, the exception is caught and logged, the request is
abandoned, and no record is enqueued.  When the Content-Length value is not
an integer, or the body does not decode, the `ValueError` /
`UnicodeDecodeError` is *not* caught (only `BrokenPipeError` is): it
propagates out of `handle_request` and, again, no record is enqueued. -/
theorem c9_log_record_amended (sigs : List Signature) (score : Signature → Int)
    (responses : List (Nat × Response)) (tags : List (String × String))
    (dateNow nowIso rawPath method remote_addr my_ip request_version : String)
    (rawHeaders rawHeadersBad : List (String × String)) (k : Nat)
    (rfileContent rfileContentBad : List Nat)
    (rid : Nat) (em : EmittedResponse) (n : Int) (post_data : String)
    (hrid : chooseResponseId sigs score k = Except.ok rid)
    (hresp : responder responses tags dateNow rid = Except.ok em)
    (hcl : contentLengthOf rawHeaders = Except.ok n)
    (hdec : pyDecode (pyRead rfileContent n) = Except.ok post_data)
    (hclBad : contentLengthOf rawHeadersBad = Except.error PyErr.valueError)
    (hdecBad : pyDecode (pyRead rfileContentBad n) = Except.error PyErr.unicodeDecodeError) :
    handle_request sigs score responses tags dateNow nowIso rawPath method remote_addr
        my_ip request_version rawHeaders k none rfileContent =
      Except.ok { response_id := rid, queued := some {
        time := nowIso
        headers := dictOfPairs (rawHeaders.map (fun p => (canonKey p.1, p.2)))
        sip := remote_addr
        dip := my_ip
        method := method
        url := unquote rawPath
        data := post_data
        useragent := lookupCI rawHeaders "User-Agent"
        version := request_version
        response_id := rid
        signature_id := (selectBest sigs score).2 } } ∧
    handle_request sigs score responses tags dateNow nowIso rawPath method remote_addr
        my_ip request_version rawHeaders k (some PyErr.brokenPipe) rfileContent =
      Except.ok { response_id := rid, queued := none } ∧
    handle_request sigs score responses tags dateNow nowIso rawPath method remote_addr
        my_ip request_version rawHeadersBad k none rfileContent =
      Except.error PyErr.valueError ∧
    handle_request sigs score responses tags dateNow nowIso rawPath method remote_addr
        my_ip request_version rawHeaders k none rfileContentBad =
      Except.error PyErr.unicodeDecodeError := by
  refine ⟨?_, ?_, ?_, ?_⟩
  · unfold handle_request
    rw [hrid]
    dsimp only
    rw [hresp]
    dsimp only
    rw [hcl]
    dsimp only
    rw [hdec]
  · unfold handle_request
    rw [hrid]
    dsimp only
    rw [hresp]
    simp
  · unfold handle_request
    rw [hrid]
    dsimp only
    rw [hresp]
    dsimp only
    rw [hclBad]
    simp
  · unfold handle_request
    rw [hrid]
    dsimp only
    rw [hresp]
    dsimp only
    rw [hcl]
    dsimp only
    rw [hdecBad]
    simp

theorem c9_witness :
    (chooseResponseId [] (fun _ => (0 : Int)) 0 = Except.ok 1 ∧
      responder [(1, Response.mk (some 200) [] (some "hi"))] [] "D" 1 =
        Except.ok (EmittedResponse.mk 200 none
          [("Content-Type", "text/html"), ("Content-Length", "2")] "hi") ∧
      contentLengthOf [("Content-Length", "4"), ("User-Agent", "UA")] = Except.ok 4 ∧
      pyDecode (pyRead [97, 98, 99, 100, 101, 102, 103] 4) = Except.ok "abcd" ∧
      contentLengthOf [("Content-Length", "abc")] = Except.error PyErr.valueError ∧
      pyDecode (pyRead [255] 4) = Except.error PyErr.unicodeDecodeError) ∧
    (handle_request [] (fun _ => (0 : Int)) [(1, Response.mk (some 200) [] (some "hi"))] []
        "D" "T" "/x%20y" "GET" "10.0.0.5" "192.0.2.7" "HTTP/1.1"
        [("Content-Length", "4"), ("User-Agent", "UA")] 0 none
        [97, 98, 99, 100, 101, 102, 103] =
      Except.ok { response_id := 1, queued := some {
        time := "T"
        headers := dictOfPairs (([("Content-Length", "4"), ("User-Agent", "UA")] :
          List (String × String)).map (fun p => (canonKey p.1, p.2)))
        sip := "10.0.0.5"
        dip := "192.0.2.7"
        method := "GET"
        url := unquote "/x%20y"
        data := "abcd"
        useragent := lookupCI [("Content-Length", "4"), ("User-Agent", "UA")] "User-Agent"
        version := "HTTP/1.1"
        response_id := 1
        signature_id := (selectBest [] (fun _ => (0 : Int))).2 } } ∧
    handle_request [] (fun _ => (0 : Int)) [(1, Response.mk (some 200) [] (some "hi"))] []
        "D" "T" "/x%20y" "GET" "10.0.0.5" "192.0.2.7" "HTTP/1.1"
        [("Content-Length", "4"), ("User-Agent", "UA")] 0 (some PyErr.brokenPipe)
        [97, 98, 99, 100, 101, 102, 103] =
      Except.ok { response_id := 1, queued := none } ∧
    handle_request [] (fun _ => (0 : Int)) [(1, Response.mk (some 200) [] (some "hi"))] []
        "D" "T" "/x%20y" "GET" "10.0.0.5" "192.0.2.7" "HTTP/1.1"
        [("Content-Length", "abc")] 0 none [97, 98, 99, 100, 101, 102, 103] =
      Except.error PyErr.valueError ∧
    handle_request [] (fun _ => (0 : Int)) [(1, Response.mk (some 200) [] (some "hi"))] []
        "D" "T" "/x%20y" "GET" "10.0.0.5" "192.0.2.7" "HTTP/1.1"
        [("Content-Length", "4"), ("User-Agent", "UA")] 0 none [255] =
      Except.error PyErr.unicodeDecodeError) :=
  ⟨⟨rfl, rfl, rfl, rfl, rfl, rfl⟩, c9_log_record_amended [] (fun _ => (0 : Int))
    [(1, Response.mk (some 200) [] (some "hi"))] [] "D" "T" "/x%20y" "GET" "10.0.0.5"
    "192.0.2.7" "HTTP/1.1" [("Content-Length", "4"), ("User-Agent", "UA")]
    [("Content-Length", "abc")] 0 [97, 98, 99, 100, 101, 102, 103] [255] 1
    (EmittedResponse.mk 200 none [("Content-Type", "text/html"), ("Content-Length", "2")] "hi")
    4 "abcd" rfl rfl rfl rfl rfl rfl⟩

/-- C10: The claim (and the spec) require delivery of a second shutdown
signal during an in-progress shutdown to be a no-op that never re-enters or
duplicates the release sequence.  `shutdown_handler` contains no guard flag
at all: a second delivery re-enters the handler and repeats the release
sequence, so `isc_agent.shutdown()` (and, when the second signal arrives
later, `stun_mgr.shutdown()`) runs twice, where a single delivery runs each
exactly once. -/
theorem c10_second_signal_duplicates_release :
    (traceWithSecondSignal 1).count ReleaseStep.agentShutdown = 2 ∧
    (traceWithSecondSignal 2).count ReleaseStep.agentShutdown = 2 ∧
    (traceWithSecondSignal 2).count ReleaseStep.stunnelShutdown = 2 ∧
    shutdownHandlerSteps.count ReleaseStep.agentShutdown = 1 ∧
    shutdownHandlerSteps.count ReleaseStep.stunnelShutdown = 1 := by decide

end DShield
